import Mathlib

/-!
# Verification of `pkg/utils/hash.go` (alist)

A shallow embedding of the multi-algorithm hashing utility: algorithm
registry (`RegisterHash`, `name2hash`, `alias2hash`, `Supported`),
single-pass helpers (`HashData`, `HashReader`, `HashFile`,
`GetMD5EncodeStr`), the fan-out `MultiHasher` (`Write`, `Sum`, `Size`,
`GetHashInfo`) and the `HashInfo` result set.

Bytes are modelled as `Nat` (values `< 256`), byte slices as `List Nat`,
32-bit machine words as `Nat` reduced modulo `2^32` at every wrap-around
point.  The standard digest constructors bound at registration
(`crypto/md5`, `crypto/sha1`, `crypto/sha256`) are implemented from their
public specifications (RFC 1321, RFC 3174, FIPS 180-4).
-/

set_option maxRecDepth 100000

namespace AlistHash

/-! ## 32-bit word arithmetic -/

/-- 2^32, the modulus of 32-bit word arithmetic. -/
def M32 : Nat := 4294967296

/-- Left-rotation of a 32-bit word. -/
def rotl32 (x n : Nat) : Nat :=
  ((x <<< n) ||| (x >>> (32 - n))) % M32

/-- Right-rotation of a 32-bit word. -/
def rotr32 (x n : Nat) : Nat :=
  ((x >>> n) ||| (x <<< (32 - n))) % M32

/-- Bitwise complement of a 32-bit word. -/
def not32 (x : Nat) : Nat := x ^^^ 4294967295

/-! ## Byte/word (de)serialization -/

/-- Little-endian decoding of a byte list into 32-bit words (4 bytes each). -/
def leWords : List Nat → List Nat
  | b0 :: b1 :: b2 :: b3 :: rest =>
      (b0 + 256 * (b1 + 256 * (b2 + 256 * b3))) :: leWords rest
  | _ => []

/-- Big-endian decoding of a byte list into 32-bit words (4 bytes each). -/
def beWords : List Nat → List Nat
  | b0 :: b1 :: b2 :: b3 :: rest =>
      (((b0 * 256 + b1) * 256 + b2) * 256 + b3) :: beWords rest
  | _ => []

/-- Little-endian encoding of a 32-bit word as 4 bytes. -/
def leBytes4 (w : Nat) : List Nat :=
  [w % 256, w / 256 % 256, w / 65536 % 256, w / 16777216 % 256]

/-- Big-endian encoding of a 32-bit word as 4 bytes. -/
def beBytes4 (w : Nat) : List Nat :=
  [w / 16777216 % 256, w / 65536 % 256, w / 256 % 256, w % 256]

/-- Little-endian encoding of a 64-bit value as 8 bytes. -/
def leBytes8 (n : Nat) : List Nat :=
  (List.range 8).map (fun i => n / 256 ^ i % 256)

/-- Big-endian encoding of a 64-bit value as 8 bytes. -/
def beBytes8 (n : Nat) : List Nat :=
  (List.range 8).map (fun i => n / 256 ^ (7 - i) % 256)

/-- Block splitting worker, structurally recursive on a fuel argument so
that it evaluates by kernel reduction; every step consumes at least one
byte, so `fuel = length` is always enough. -/
def chunks64Go : Nat → List Nat → List (List Nat)
  | 0, _ => []
  | _, [] => []
  | fuel + 1, b :: rest =>
      ((b :: rest).take 64) :: chunks64Go fuel ((b :: rest).drop 64)

/-- Split a byte list into 64-byte blocks (the input length is always a
multiple of 64 after padding). -/
def chunks64 (l : List Nat) : List (List Nat) :=
  chunks64Go l.length l

/-- Merkle–Damgård padding: append `0x80`, zero bytes up to 56 mod 64, then
the original bit length as an 8-byte integer (`lenBytes` chooses the
endianness). -/
def mdPad (lenBytes : Nat → List Nat) (msg : List Nat) : List Nat :=
  let len := msg.length
  let z := (120 - ((len + 1) % 64)) % 64
  msg ++ 128 :: (List.replicate z 0 ++ lenBytes ((8 * len) % 18446744073709551616))

/-! ## MD5 (RFC 1321), the digest computed by `crypto/md5` -/

/-- The 64 MD5 sine-derived round constants `T[i]`. -/
def md5T : List Nat :=
  [0xd76aa478, 0xe8c7b756, 0x242070db, 0xc1bdceee,
   0xf57c0faf, 0x4787c62a, 0xa8304613, 0xfd469501,
   0x698098d8, 0x8b44f7af, 0xffff5bb1, 0x895cd7be,
   0x6b901122, 0xfd987193, 0xa679438e, 0x49b40821,
   0xf61e2562, 0xc040b340, 0x265e5a51, 0xe9b6c7aa,
   0xd62f105d, 0x02441453, 0xd8a1e681, 0xe7d3fbc8,
   0x21e1cde6, 0xc33707d6, 0xf4d50d87, 0x455a14ed,
   0xa9e3e905, 0xfcefa3f8, 0x676f02d9, 0x8d2a4c8a,
   0xfffa3942, 0x8771f681, 0x6d9d6122, 0xfde5380c,
   0xa4beea44, 0x4bdecfa9, 0xf6bb4b60, 0xbebfbc70,
   0x289b7ec6, 0xeaa127fa, 0xd4ef3085, 0x04881d05,
   0xd9d4d039, 0xe6db99e5, 0x1fa27cf8, 0xc4ac5665,
   0xf4292244, 0x432aff97, 0xab9423a7, 0xfc93a039,
   0x655b59c3, 0x8f0ccc92, 0xffeff47d, 0x85845dd1,
   0x6fa87e4f, 0xfe2ce6e0, 0xa3014314, 0x4e0811a1,
   0xf7537e82, 0xbd3af235, 0x2ad7d2bb, 0xeb86d391]

/-- The MD5 per-round left-rotation amounts. -/
def md5S (i : Nat) : Nat :=
  (([[7, 12, 17, 22], [5, 9, 14, 20], [4, 11, 16, 23], [6, 10, 15, 21]].getD
     (i / 16) []).getD (i % 4) 0)

/-- The MD5 round functions F, G, H, I selected by the round index. -/
def md5F (i b c d : Nat) : Nat :=
  if i < 16 then (b &&& c) ||| (not32 b &&& d)
  else if i < 32 then (d &&& b) ||| (not32 d &&& c)
  else if i < 48 then b ^^^ c ^^^ d
  else c ^^^ (b ||| not32 d)

/-- The MD5 message-word index used in round `i`. -/
def md5X (i : Nat) : Nat :=
  if i < 16 then i
  else if i < 32 then (5 * i + 1) % 16
  else if i < 48 then (3 * i + 5) % 16
  else (7 * i) % 16

/-- One MD5 round on the register 4-tuple. -/
def md5Step (X : List Nat) (st : Nat × Nat × Nat × Nat) (i : Nat) :
    Nat × Nat × Nat × Nat :=
  let (a, b, c, d) := st
  let v := rotl32 ((a + md5F i b c d + X.getD (md5X i) 0 + md5T.getD i 0) % M32)
    (md5S i)
  (d, (b + v) % M32, b, c)

/-- MD5 compression of one 64-byte block. -/
def md5Compress (st : Nat × Nat × Nat × Nat) (block : List Nat) :
    Nat × Nat × Nat × Nat :=
  let X := leWords block
  let r := (List.range 64).foldl (md5Step X) st
  ((st.1 + r.1) % M32, (st.2.1 + r.2.1) % M32,
   (st.2.2.1 + r.2.2.1) % M32, (st.2.2.2 + r.2.2.2) % M32)

/-- The MD5 digest (16 bytes) of a byte sequence. -/
def md5Bytes (msg : List Nat) : List Nat :=
  let st := (chunks64 (mdPad leBytes8 msg)).foldl md5Compress
    (0x67452301, 0xefcdab89, 0x98badcfe, 0x10325476)
  leBytes4 st.1 ++ leBytes4 st.2.1 ++ leBytes4 st.2.2.1 ++ leBytes4 st.2.2.2

/-! ## SHA-1 (RFC 3174), the digest computed by `crypto/sha1` -/

/-- The SHA-1 message schedule: 80 32-bit words from one block. -/
def sha1Sched (block : List Nat) : List Nat :=
  (List.range 64).foldl (fun w j =>
    let t := j + 16
    w ++ [rotl32 ((w.getD (t - 3) 0) ^^^ (w.getD (t - 8) 0) ^^^
      (w.getD (t - 14) 0) ^^^ (w.getD (t - 16) 0)) 1]) (beWords block)

/-- One SHA-1 round on the register 5-tuple. -/
def sha1Step (W : List Nat) (st : Nat × Nat × Nat × Nat × Nat) (t : Nat) :
    Nat × Nat × Nat × Nat × Nat :=
  let (a, b, c, d, e) := st
  let fk : Nat × Nat :=
    if t < 20 then ((b &&& c) ||| (not32 b &&& d), 0x5a827999)
    else if t < 40 then (b ^^^ c ^^^ d, 0x6ed9eba1)
    else if t < 60 then ((b &&& c) ||| (b &&& d) ||| (c &&& d), 0x8f1bbcdc)
    else (b ^^^ c ^^^ d, 0xca62c1d6)
  let temp := (rotl32 a 5 + fk.1 + e + fk.2 + W.getD t 0) % M32
  (temp, a, rotl32 b 30, c, d)

/-- SHA-1 compression of one 64-byte block. -/
def sha1Compress (st : Nat × Nat × Nat × Nat × Nat) (block : List Nat) :
    Nat × Nat × Nat × Nat × Nat :=
  let W := sha1Sched block
  let r := (List.range 80).foldl (sha1Step W) st
  ((st.1 + r.1) % M32, (st.2.1 + r.2.1) % M32, (st.2.2.1 + r.2.2.1) % M32,
   (st.2.2.2.1 + r.2.2.2.1) % M32, (st.2.2.2.2 + r.2.2.2.2) % M32)

/-- The SHA-1 digest (20 bytes) of a byte sequence. -/
def sha1Bytes (msg : List Nat) : List Nat :=
  let st := (chunks64 (mdPad beBytes8 msg)).foldl sha1Compress
    (0x67452301, 0xefcdab89, 0x98badcfe, 0x10325476, 0xc3d2e1f0)
  beBytes4 st.1 ++ beBytes4 st.2.1 ++ beBytes4 st.2.2.1 ++
    beBytes4 st.2.2.2.1 ++ beBytes4 st.2.2.2.2

/-! ## SHA-256 (FIPS 180-4), the digest computed by `crypto/sha256` -/

/-- The 64 SHA-256 round constants (FIPS 180-4 §4.2.2, in decimal). -/
def sha256K : List Nat :=
  [1116352408, 1899447441, 3049323471, 3921009573, 961987163,
   1508970993, 2453635748, 2870763221, 3624381080, 310598401,
   607225278, 1426881987, 1925078388, 2162078206, 2614888103,
   3248222580, 3835390401, 4022224774, 264347078, 604807628,
   770255983, 1249150122, 1555081692, 1996064986, 2554220882,
   2821834349, 2952996808, 3210313671, 3336571891, 3584528711,
   113926993, 338241895, 666307205, 773529912, 1294757372,
   1396182291, 1695183700, 1986661051, 2177026350, 2456956037,
   2730485921, 2820302411, 3259730800, 3345764771, 3516065817,
   3600352804, 4094571909, 275423344, 430227734, 506948616,
   659060556, 883997877, 958139571, 1322822218, 1537002063,
   1747873779, 1955562222, 2024104815, 2227730452, 2361852424,
   2428436474, 2756734187, 3204031479, 3329325298]

/-- SHA-256 small sigma 0 (message schedule). -/
def sha256s0 (x : Nat) : Nat := rotr32 x 7 ^^^ rotr32 x 18 ^^^ (x >>> 3)

/-- SHA-256 small sigma 1 (message schedule). -/
def sha256s1 (x : Nat) : Nat := rotr32 x 17 ^^^ rotr32 x 19 ^^^ (x >>> 10)

/-- The SHA-256 message schedule: 64 32-bit words from one block. -/
def sha256Sched (block : List Nat) : List Nat :=
  (List.range 48).foldl (fun w j =>
    let t := j + 16
    w ++ [(sha256s1 (w.getD (t - 2) 0) + w.getD (t - 7) 0 +
      sha256s0 (w.getD (t - 15) 0) + w.getD (t - 16) 0) % M32]) (beWords block)

/-- One SHA-256 round on the register 8-tuple. -/
def sha256Step (W : List Nat)
    (st : Nat × Nat × Nat × Nat × Nat × Nat × Nat × Nat) (t : Nat) :
    Nat × Nat × Nat × Nat × Nat × Nat × Nat × Nat :=
  let (a, b, c, d, e, f, g, h) := st
  let S1 := rotr32 e 6 ^^^ rotr32 e 11 ^^^ rotr32 e 25
  let ch := (e &&& f) ^^^ (not32 e &&& g)
  let t1 := (h + S1 + ch + sha256K.getD t 0 + W.getD t 0) % M32
  let S0 := rotr32 a 2 ^^^ rotr32 a 13 ^^^ rotr32 a 22
  let mj := (a &&& b) ^^^ (a &&& c) ^^^ (b &&& c)
  let t2 := (S0 + mj) % M32
  ((t1 + t2) % M32, a, b, c, (d + t1) % M32, e, f, g)

/-- SHA-256 compression of one 64-byte block. -/
def sha256Compress (st : Nat × Nat × Nat × Nat × Nat × Nat × Nat × Nat)
    (block : List Nat) : Nat × Nat × Nat × Nat × Nat × Nat × Nat × Nat :=
  let W := sha256Sched block
  let r := (List.range 64).foldl (sha256Step W) st
  ((st.1 + r.1) % M32, (st.2.1 + r.2.1) % M32, (st.2.2.1 + r.2.2.1) % M32,
   (st.2.2.2.1 + r.2.2.2.1) % M32, (st.2.2.2.2.1 + r.2.2.2.2.1) % M32,
   (st.2.2.2.2.2.1 + r.2.2.2.2.2.1) % M32,
   (st.2.2.2.2.2.2.1 + r.2.2.2.2.2.2.1) % M32,
   (st.2.2.2.2.2.2.2 + r.2.2.2.2.2.2.2) % M32)

/-- The SHA-256 digest (32 bytes) of a byte sequence. -/
def sha256Bytes (msg : List Nat) : List Nat :=
  let st := (chunks64 (mdPad beBytes8 msg)).foldl sha256Compress
    (1779033703, 3144134277, 1013904242, 2773480762,
     1359893119, 2600822924, 528734635, 1541459225)
  beBytes4 st.1 ++ beBytes4 st.2.1 ++ beBytes4 st.2.2.1 ++
    beBytes4 st.2.2.2.1 ++ beBytes4 st.2.2.2.2.1 ++
    beBytes4 st.2.2.2.2.2.1 ++ beBytes4 st.2.2.2.2.2.2.1 ++
    beBytes4 st.2.2.2.2.2.2.2

/-! ## Hex encoding (`encoding/hex.EncodeToString`) -/

/-- The lowercase hex digit for a value `< 16`. -/
def hexDigit (n : Nat) : Char :=
  if n < 10 then Char.ofNat (48 + n) else Char.ofNat (87 + n)

/-- The character list of the lowercase hex encoding of a byte list. -/
def hexChars (bs : List Nat) : List Char :=
  bs.foldr (fun b acc => hexDigit (b / 16) :: hexDigit (b % 16) :: acc) []

/-- `hex.EncodeToString`: lowercase hex encoding of a byte list. -/
def hexEncode (bs : List Nat) : String :=
  String.mk (hexChars bs)

/-! ## Errors -/

/-- The Go `error` values this package can produce: `ErrUnsupported`
(`errors.New("hash type not supported")`), `io.ErrShortWrite`, opaque I/O
errors from a byte source, and `errs.NewErr` wrapping.  The wrapping
constructor is modelled from the spec: the `internal/errs` collaborator
(not re-specified here) annotates an underlying failure with a contextual
message. -/
inductive GoErr where
  | unsupported : GoErr
  | shortWrite : GoErr
  | ioErr : String → GoErr
  | wrap : GoErr → String → GoErr
deriving DecidableEq

/-! ## Digest computers (`hash.Hash`)

Modelled from the spec: each descriptor's constructor yields a stateful
digest computer with `Write(bytes)` (appends to the accumulated input,
accepts every byte, never errors — the documented `hash.Hash` contract)
and `Sum(nil)` (the digest of all input accumulated so far).  The state
is the accumulated byte list together with the pure digest function of
the algorithm. -/

/-- A live digest computer: the algorithm's single-pass digest function plus
the bytes written so far. -/
structure Hasher where
  digest : List Nat → List Nat
  acc : List Nat

/-- `hash.Hash.Write`: append the input, report every byte accepted. -/
def Hasher.write (h : Hasher) (p : List Nat) : Hasher × Nat :=
  (⟨h.digest, h.acc ++ p⟩, p.length)

/-- `hash.Hash.Sum(nil)`: the digest of the bytes accumulated so far. -/
def Hasher.sum (h : Hasher) : List Nat :=
  h.digest h.acc

/-! ## `HashType` and the registry -/

/-- `HashType`: a standard hashing algorithm descriptor.  Go code compares
descriptors by pointer identity; `ptrId` models the allocation identity of
the `*HashType` returned by `RegisterHash`.  `digestFn` is the single-pass
digest function underlying the `NewFunc` constructor field. -/
structure HashType where
  ptrId : Nat
  Width : Nat
  Name : String
  Alias : String
  digestFn : List Nat → List Nat

/-- Pointer equality of two descriptors (Go `*HashType` map-key equality). -/
def HashType.ptrEq (a b : HashType) : Bool :=
  a.ptrId == b.ptrId

/-- `t.NewFunc()`: a fresh digest computer for the algorithm. -/
def HashType.NewFunc (t : HashType) : Hasher :=
  ⟨t.digestFn, []⟩

/-- The package-level registry state: the `name2hash` and `alias2hash` maps
and the ordered `Supported` list, plus the allocation counter that issues
fresh pointer identities. -/
structure Registry where
  nextId : Nat
  name2hash : String → Option HashType
  alias2hash : String → Option HashType
  Supported : List HashType

/-- The registry before any registration: empty maps, empty list. -/
def emptyRegistry : Registry :=
  ⟨0, fun _ => none, fun _ => none, []⟩

/-- `RegisterHash`: allocate a new descriptor, store it under its name and
its alias (overwriting any previous binding), append it to `Supported`,
and return it.  The Go original mutates package globals; the model threads
the registry state explicitly. -/
def RegisterHash (name aliasStr : String) (width : Nat)
    (newFunc : List Nat → List Nat) (r : Registry) : HashType × Registry :=
  let newType : HashType :=
    ⟨r.nextId, width, name, aliasStr, newFunc⟩
  (newType,
   ⟨r.nextId + 1,
    fun s => if s = name then some newType else r.name2hash s,
    fun s => if s = aliasStr then some newType else r.alias2hash s,
    r.Supported ++ [newType]⟩)

/-- The first boot registration (`md5`). -/
def reg0 : HashType × Registry :=
  RegisterHash "md5" "MD5" 32 md5Bytes emptyRegistry

/-- `MD5` indicates MD5 support. -/
def MD5 : HashType := reg0.1

/-- The second boot registration (`sha1`). -/
def reg1 : HashType × Registry :=
  RegisterHash "sha1" "SHA-1" 40 sha1Bytes reg0.2

/-- `SHA1` indicates SHA-1 support. -/
def SHA1 : HashType := reg1.1

/-- The third boot registration (`sha256`). -/
def reg2 : HashType × Registry :=
  RegisterHash "sha256" "SHA-256" 64 sha256Bytes reg1.2

/-- `SHA256` indicates SHA-256 support. -/
def SHA256 : HashType := reg2.1

/-- The registry state after the three package-initializer registrations. -/
def bootRegistry : Registry := reg2.2

/-! ## Single-pass helpers -/

/-- `HashData`: hash of one `hashType` over an in-memory byte slice. -/
def HashData (hashType : HashType) (data : List Nat) : String :=
  let h := hashType.NewFunc
  let h1 := (h.write data).1
  hexEncode h1.sum

/-- The UTF-8 bytes of one character (the Go `[]byte(string)` view is the
UTF-8 encoding of the string's characters). -/
def charUtf8 (c : Char) : List Nat :=
  let n := c.toNat
  if n < 128 then [n]
  else if n < 2048 then [192 + n / 64, 128 + n % 64]
  else if n < 65536 then [224 + n / 4096, 128 + n / 64 % 64, 128 + n % 64]
  else [240 + n / 262144, 128 + n / 4096 % 64, 128 + n / 64 % 64, 128 + n % 64]

/-- `[]byte(s)`: the UTF-8 byte sequence of a Go string. -/
def strBytes (s : String) : List Nat :=
  s.data.foldl (fun acc c => acc ++ charUtf8 c) []

/-- `GetMD5EncodeStr`: MD5 hex digest of a string's bytes. -/
def GetMD5EncodeStr (data : String) : String :=
  HashData MD5 (strBytes data)

/-! ## Byte sources (`io.ReadSeeker`) -/

/-- Modelled from the spec: a seekable byte source.  `data` is its whole
content, `pos` the current read position; `readErr`/`seekErr` are the
errors its `Read`-drain and its `Seek` will surface, if any (an interface
implementation may fail either operation). -/
structure ReadSeeker where
  data : List Nat
  pos : Nat
  readErr : Option GoErr
  seekErr : Option GoErr

/-- `io.Copy(h, reader)`: drain the source into a digest computer.  On
success every byte from the current position onward is written and the
position reaches the end; on failure the source's read error is reported. -/
def ioCopy (h : Hasher) (r : ReadSeeker) :
    Hasher × ReadSeeker × Nat × Option GoErr :=
  match r.readErr with
  | some e => (h, r, 0, some e)
  | none =>
      let bs := r.data.drop r.pos
      ((h.write bs).1, { r with pos := r.data.length }, bs.length, none)

/-- `Seek(0, io.SeekStart)`: rewind the source to its start, unless the
source's seek fails. -/
def ReadSeeker.seekStart (r : ReadSeeker) : ReadSeeker × Option GoErr :=
  match r.seekErr with
  | some e => (r, some e)
  | none => ({ r with pos := 0 }, none)

/-- `HashReader`: hash of one `hashType` drained from a reader; a read
failure is wrapped with the message `"HashReader error"` and yields an
empty digest string. -/
def HashReader (hashType : HashType) (reader : ReadSeeker) :
    ReadSeeker × String × Option GoErr :=
  let h := hashType.NewFunc
  let r := ioCopy h reader
  match r.2.2.2 with
  | some e => (r.2.1, "", some (GoErr.wrap e "HashReader error"))
  | none => (r.2.1, hexEncode r.1.sum, none)

/-- `HashFile`: hash of one `hashType` from a seekable source, rewinding the
source to its start afterwards.  A rewind failure still returns the
computed digest string, together with the seek error. -/
def HashFile (hashType : HashType) (file : ReadSeeker) :
    ReadSeeker × String × Option GoErr :=
  let r := HashReader hashType file
  match r.2.2 with
  | some e => (r.1, "", some e)
  | none =>
      let s := r.1.seekStart
      match s.2 with
      | some e => (s.1, r.2.1, some e)
      | none => (s.1, r.2.1, none)

/-! ## `MultiHasher`

The Go `MultiHasher` stores a map `h` from `*HashType` to its live
`hash.Hash` and a multiwriter `w` over the same computers; since `w`
aliases exactly the computers in `h`, the model keeps the single
association list (keyed by pointer identity, in map-insertion order) and
lets the multiwriter's `Write` act on it directly. -/

/-- Lookup in a pointer-keyed Go map, modelled as an association list. -/
def mapLookup {α : Type} : List (HashType × α) → HashType → Option α
  | [], _ => none
  | q :: rest, t => if q.1.ptrEq t then some q.2 else mapLookup rest t

/-- Go map assignment `m[t] = v` on the association list: replace the entry
with the matching key, or append a new one. -/
def mapInsert {α : Type} : List (HashType × α) → HashType → α →
    List (HashType × α)
  | [], t, v => [(t, v)]
  | q :: rest, t, v =>
      if q.1.ptrEq t then (t, v) :: rest else q :: mapInsert rest t v

/-- `fromTypes`: one fresh digest computer per requested type. -/
def fromTypes (types : List HashType) : List (HashType × Hasher) :=
  types.foldl (fun m t => mapInsert m t t.NewFunc) []

/-- `io.MultiWriter(...).Write(p)`: forward `p` to every computer in turn;
a short write by one of them stops the pass with `io.ErrShortWrite`, and
on success the full length is reported.  (`hash.Hash` writers never error,
so the per-writer error check of the Go multiwriter has no error to
propagate.) -/
def mwWrite : List (HashType × Hasher) → List Nat →
    List (HashType × Hasher) × Nat × Option GoErr
  | [], p => ([], p.length, none)
  | q :: rest, p =>
      let r := q.2.write p
      if r.2 ≠ p.length then ((q.1, r.1) :: rest, r.2, some GoErr.shortWrite)
      else
        let rr := mwWrite rest p
        ((q.1, r.1) :: rr.1, rr.2.1, rr.2.2)

/-- A `MultiHasher` constructs various hashes on all incoming writes. -/
structure MultiHasher where
  size : Nat
  h : List (HashType × Hasher)

/-- `NewMultiHasher`: a hash writer for the requested hash types, with the
byte counter at its zero value. -/
def NewMultiHasher (types : List HashType) : MultiHasher :=
  ⟨0, fromTypes types⟩

/-- The accounting step of `MultiHasher.Write`, applied to whatever reply
`(n, err)` the wrapped `io.Writer` interface value gives back:
`m.size += int64(n); return n, err`.  The counter advances by `n` and the
reply is passed through unchanged, whether or not `err` is nil. -/
def mhAccount (m : MultiHasher) (h2 : List (HashType × Hasher)) (n : Nat)
    (err : Option GoErr) : MultiHasher × Nat × Option GoErr :=
  (⟨m.size + n, h2⟩, n, err)

/-- `MultiHasher.Write`: forward to the multiwriter, then account the
reported byte count. -/
def MultiHasher.Write (m : MultiHasher) (p : List Nat) :
    MultiHasher × Nat × Option GoErr :=
  let r := mwWrite m.h p
  mhAccount m r.1 r.2.1 r.2.2

/-- `MultiHasher.Size`: the number of bytes written. -/
def MultiHasher.Size (m : MultiHasher) : Nat :=
  m.size

/-- `MultiHasher.Sum`: the specified hash from the multihasher, or
`ErrUnsupported` when it was not requested at construction. -/
def MultiHasher.Sum (m : MultiHasher) (hashType : HashType) :
    Except GoErr (List Nat) :=
  match mapLookup m.h hashType with
  | none => Except.error GoErr.unsupported
  | some h => Except.ok h.sum

/-- A `HashInfo` contains the hash string for one or more hash types. -/
structure HashInfo where
  h : List (HashType × String)

/-- `MultiHasher.GetHashInfo`: hex-encode every computer's current digest
into a result set. -/
def MultiHasher.GetHashInfo (m : MultiHasher) : HashInfo :=
  ⟨m.h.map (fun q => (q.1, hexEncode q.2.sum))⟩

/-- `NewHashInfo`: a single-entry result set from a known type and string. -/
def NewHashInfo (ht : HashType) (str : String) : HashInfo :=
  ⟨[(ht, str)]⟩

/-- `HashInfo.String` (the spec's `Render`): one `name:digest` line per
entry with a non-empty digest string, joined by newlines.  (Named `Render`
here because a method named `String` would shadow the string type inside
its own namespace.) -/
def HashInfo.Render (hi : HashInfo) : String :=
  let tmp := hi.h.foldl
    (fun tmp q => if q.2.length > 0 then tmp ++ [q.1.Name ++ ":" ++ q.2]
      else tmp) []
  String.intercalate "\n" tmp

/-- `HashInfo.GetHash`: the stored string for a type, `""` when absent (the
Go map's zero value). -/
def HashInfo.GetHash (hi : HashInfo) (ht : HashType) : String :=
  match mapLookup hi.h ht with
  | some s => s
  | none => ""

/-- Perform a sequence of `Write` calls, collecting the returned byte
counts. -/
def writeAll (m : MultiHasher) : List (List Nat) → MultiHasher × List Nat
  | [] => (m, [])
  | p :: rest =>
      let r := m.Write p
      let rr := writeAll r.1 rest
      (rr.1, r.2.1 :: rr.2)

/-! ## Helper lemmas -/

/-- The multiwriter never fails and never short-writes: every computer gets
the whole input appended, the full length is reported, the error is nil. -/
theorem mwWrite_eq (h : List (HashType × Hasher)) (p : List Nat) :
    mwWrite h p = (h.map (fun q => (q.1, (q.2.write p).1)), p.length, none) := by
  induction h with
  | nil => simp [mwWrite]
  | cons q rest ih => simp [mwWrite, Hasher.write, ih]

/-- Rewriting every value of the association list leaves lookup results
mapped pointwise. -/
theorem mapLookup_map (wf : Hasher → Hasher) (h : List (HashType × Hasher))
    (t : HashType) :
    mapLookup (h.map (fun q => (q.1, wf q.2))) t =
      (mapLookup h t).map wf := by
  induction h with
  | nil => simp [mapLookup]
  | cons q rest ih =>
      simp only [List.map_cons, mapLookup]
      by_cases hq : q.1.ptrEq t
      · simp [hq]
      · simp [hq, ih]

/-- Map assignment then lookup: the inserted key wins, every other key is
unaffected. -/
theorem mapLookup_insert {α : Type} (h : List (HashType × α)) (t : HashType)
    (v : α) (d : HashType) :
    mapLookup (mapInsert h t v) d =
      if t.ptrEq d then some v else mapLookup h d := by
  induction h with
  | nil => simp [mapInsert, mapLookup]
  | cons q rest ih =>
      simp only [mapInsert, mapLookup]
      by_cases hqt : q.1.ptrEq t
      · by_cases htd : t.ptrEq d
        · simp [hqt, htd, mapLookup]
        · have hqd : q.1.ptrEq d = false := by
            simp only [HashType.ptrEq, beq_iff_eq] at hqt htd
            simp only [HashType.ptrEq, beq_eq_false_iff_ne, ne_eq]
            omega
          simp [hqt, htd, hqd, mapLookup]
      · by_cases hqd : q.1.ptrEq d
        · have htd : t.ptrEq d = false := by
            simp only [HashType.ptrEq, beq_iff_eq] at hqt hqd
            simp only [HashType.ptrEq, beq_eq_false_iff_ne, ne_eq]
            omega
          simp [hqt, hqd, htd, mapLookup]
        · simp [hqt, hqd, mapLookup, ih]

/-- Lookup after `fromTypes`-style folding fails exactly when it failed in
the accumulator and no requested type matches the key. -/
theorem mapLookup_foldl_insert_none (types : List HashType)
    (acc : List (HashType × Hasher)) (d : HashType) :
    mapLookup (types.foldl (fun m t => mapInsert m t t.NewFunc) acc) d = none ↔
      (mapLookup acc d = none ∧
        types.any (fun t => t.ptrEq d) = false) := by
  induction types generalizing acc with
  | nil => simp
  | cons t rest ih =>
      simp only [List.foldl_cons, List.any_cons, Bool.or_eq_false_iff]
      rw [ih, mapLookup_insert]
      by_cases htd : t.ptrEq d
      · simp [htd]
      · simp [htd]

/-- One `Write` rewrites every computer in place and leaves the key set of
the map unchanged (lookups are mapped pointwise). -/
theorem mapLookup_write (m : MultiHasher) (p : List Nat) (d : HashType) :
    mapLookup ((m.Write p).1.h) d =
      (mapLookup m.h d).map (fun hh => (hh.write p).1) := by
  simp only [MultiHasher.Write, mwWrite_eq, mhAccount]
  exact mapLookup_map (fun hh => (hh.write p).1) m.h d

/-- A whole sequence of writes cannot create or destroy map keys. -/
theorem mapLookup_writeAll_none (ps : List (List Nat)) (m : MultiHasher)
    (d : HashType) :
    mapLookup ((writeAll m ps).1.h) d = none ↔ mapLookup m.h d = none := by
  induction ps generalizing m with
  | nil => simp [writeAll]
  | cons p rest ih =>
      simp only [writeAll]
      rw [ih, mapLookup_write]
      cases mapLookup m.h d <;> simp

/-- The byte counter after a sequence of writes grew by the sum of the
reported byte counts. -/
theorem writeAll_size (ps : List (List Nat)) (m : MultiHasher) :
    ((writeAll m ps).1).size = m.size + ((writeAll m ps).2).sum := by
  induction ps generalizing m with
  | nil => simp [writeAll]
  | cons p rest ih =>
      simp only [writeAll, List.sum_cons]
      rw [ih]
      simp only [MultiHasher.Write, mhAccount]
      omega

/-- The render loop of `HashInfo.String` accumulates exactly the
`name:digest` lines of the non-empty entries, in order. -/
theorem renderLoop_eq_filterMap (l : List (HashType × String))
    (tmp : List String) :
    l.foldl (fun tmp q => if q.2.length > 0 then tmp ++ [q.1.Name ++ ":" ++ q.2]
        else tmp) tmp =
      tmp ++ l.filterMap (fun q => if q.2.length > 0 then
        some (q.1.Name ++ ":" ++ q.2) else none) := by
  induction l generalizing tmp with
  | nil => simp
  | cons q rest ih =>
      simp only [List.foldl_cons, List.filterMap_cons]
      by_cases hq : q.2.length > 0
      · simp [hq, ih]
      · simp [hq, ih]

/-- Hex encoding of at least one byte is never the empty string. -/
theorem hexEncode_ne_empty (bs : List Nat) (hne : bs ≠ []) :
    hexEncode bs ≠ "" := by
  cases bs with
  | nil => exact absurd rfl hne
  | cons b rest =>
      intro hEq
      have := congrArg String.data hEq
      simp [hexEncode, hexChars] at this

/-! ## The claims -/

/-- C1: for every algorithm descriptor `X` and byte sequence `B`, writing
`B` into a `MultiHasher` built with only `X` and reading back `X`'s digest
— via `Sum` hex-encoded, or via `GetHashInfo` — yields the same hex string
as the standalone single-pass `HashData X B`. -/
theorem c1_single_multihasher_matches_hashData (X : HashType) (B : List Nat) :
    ∃ bs, (((NewMultiHasher [X]).Write B).1).Sum X = Except.ok bs ∧
      hexEncode bs = HashData X B ∧
      ((((NewMultiHasher [X]).Write B).1).GetHashInfo).GetHash X =
        HashData X B := by
  refine ⟨X.digestFn B, ?_, ?_, ?_⟩ <;>
    simp [NewMultiHasher, fromTypes, mapInsert, MultiHasher.Write, mwWrite,
      mhAccount, Hasher.write, MultiHasher.Sum, mapLookup, HashType.ptrEq,
      HashType.NewFunc, Hasher.sum, HashData, MultiHasher.GetHashInfo,
      HashInfo.GetHash]

/-- C2: `Sum` fails with the unsupported-algorithm error exactly when the
requested descriptor was not among the construction types (by pointer
identity), and succeeds with the current digest bytes when it was —
regardless of the writes performed in between. -/
theorem c2_sum_unsupported_iff_not_constructed (types : List HashType)
    (ps : List (List Nat)) (d : HashType) :
    ((writeAll (NewMultiHasher types) ps).1.Sum d =
        Except.error GoErr.unsupported ↔
      types.any (fun t => t.ptrEq d) = false) ∧
    (types.any (fun t => t.ptrEq d) = true →
      ∃ hh, mapLookup ((writeAll (NewMultiHasher types) ps).1.h) d = some hh ∧
        (writeAll (NewMultiHasher types) ps).1.Sum d = Except.ok hh.sum) := by
  have hnone :
      mapLookup ((writeAll (NewMultiHasher types) ps).1.h) d = none ↔
        types.any (fun t => t.ptrEq d) = false := by
    rw [mapLookup_writeAll_none]
    have := mapLookup_foldl_insert_none types [] d
    simp only [NewMultiHasher, fromTypes]
    rw [this]
    simp [mapLookup]
  constructor
  · rw [MultiHasher.Sum]
    cases hL : mapLookup ((writeAll (NewMultiHasher types) ps).1.h) d with
    | none =>
        simp only [hL] at hnone ⊢
        simp [← hnone]
    | some hh =>
        simp only [hL] at hnone ⊢
        constructor
        · intro hBad
          exact absurd hBad (by simp)
        · intro hAny
          have : (some hh : Option Hasher) = none := hnone.mpr hAny
          exact absurd this (by simp)
  · intro hAny
    cases hL : mapLookup ((writeAll (NewMultiHasher types) ps).1.h) d with
    | none =>
        have := hnone.mp hL
        rw [this] at hAny
        exact absurd hAny (by simp)
    | some hh =>
        exact ⟨hh, rfl, by simp [MultiHasher.Sum, hL]⟩

/-- C2 witness: with a `{MD5}` multihasher that has seen one write,
`Sum SHA1` fails with the unsupported error while `Sum MD5` succeeds with
the MD5 computer's current digest. -/
theorem c2_witness :
    ((writeAll (NewMultiHasher [MD5]) [[104]]).1.Sum SHA1 =
        Except.error GoErr.unsupported) ∧
    (∃ hh, mapLookup ((writeAll (NewMultiHasher [MD5]) [[104]]).1.h) MD5 =
        some hh ∧
      (writeAll (NewMultiHasher [MD5]) [[104]]).1.Sum MD5 =
        Except.ok hh.sum) :=
  ⟨(c2_sum_unsupported_iff_not_constructed [MD5] [[104]] SHA1).1.mpr
      (by decide),
   (c2_sum_unsupported_iff_not_constructed [MD5] [[104]] MD5).2 (by decide)⟩

/-- C3: after any sequence of writes the byte counter equals the sum of the
byte counts those writes returned; a single write of a buffer `B` returns
`B.length` with no error (no short write) and leaves `Size` at
`B.length`. -/
theorem c3_size_is_sum_of_writes (types : List HashType)
    (ps : List (List Nat)) :
    ((writeAll (NewMultiHasher types) ps).1.Size =
      ((writeAll (NewMultiHasher types) ps).2).sum) ∧
    ∀ B : List Nat,
      ((NewMultiHasher types).Write B).2.1 = B.length ∧
      ((NewMultiHasher types).Write B).2.2 = none ∧
      ((NewMultiHasher types).Write B).1.Size = B.length := by
  constructor
  · have := writeAll_size ps (NewMultiHasher types)
    simpa [MultiHasher.Size, NewMultiHasher] using this
  · intro B
    refine ⟨?_, ?_, ?_⟩ <;>
      simp [MultiHasher.Write, mwWrite_eq, mhAccount, MultiHasher.Size,
        NewMultiHasher]

/-- C4: registering two descriptors under the same canonical name `"dup"`
produces two distinct descriptors; lookup by `"dup"` afterwards returns
the second one, while the ordered `Supported` list has gained both, in
registration order. -/
theorem c4_duplicate_registration (r : Registry) (a1 a2 : String)
    (w1 w2 : Nat) (f1 f2 : List Nat → List Nat) :
    (RegisterHash "dup" a1 w1 f1 r).1 ≠
      (RegisterHash "dup" a2 w2 f2 (RegisterHash "dup" a1 w1 f1 r).2).1 ∧
    (RegisterHash "dup" a2 w2 f2
        (RegisterHash "dup" a1 w1 f1 r).2).2.name2hash "dup" =
      some (RegisterHash "dup" a2 w2 f2 (RegisterHash "dup" a1 w1 f1 r).2).1 ∧
    (RegisterHash "dup" a2 w2 f2
        (RegisterHash "dup" a1 w1 f1 r).2).2.Supported =
      r.Supported ++ [(RegisterHash "dup" a1 w1 f1 r).1,
        (RegisterHash "dup" a2 w2 f2 (RegisterHash "dup" a1 w1 f1 r).2).1] := by
  refine ⟨?_, ?_, ?_⟩
  · intro hEq
    have := congrArg HashType.ptrId hEq
    simp [RegisterHash] at this
  · simp [RegisterHash]
  · simp [RegisterHash]

/-- C5: the rendered result set consists of one `name:digest` line per
entry with a non-empty digest string (in entry order, newline-joined) and
no line for an empty digest; in particular `{MD5 : "", SHA1 : "abc123"}`
renders as the single line `sha1:abc123`. -/
theorem c5_render_skips_empty_digests (entries : List (HashType × String)) :
    HashInfo.Render ⟨entries⟩ = String.intercalate "\n"
      (entries.filterMap (fun q => if q.2.length > 0 then
        some (q.1.Name ++ ":" ++ q.2) else none)) ∧
    HashInfo.Render ⟨[(MD5, ""), (SHA1, "abc123")]⟩ = "sha1:abc123" := by
  constructor
  · simp only [HashInfo.Render]
    rw [renderLoop_eq_filterMap]
    simp
  · rfl

/-- C6: for a seekable source positioned at its start whose reads succeed,
`HashFile` returns the digest of the whole contents; the error returned is
exactly the rewind outcome, so a rewind failure still comes with the
computed (non-empty, for a non-empty digest) hex string, and on full
success the position is back at the start. -/
theorem c6_hashFile_rewind (ht : HashType) (f : ReadSeeker)
    (hr : f.readErr = none) (hp : f.pos = 0) :
    (HashFile ht f).2.1 = HashData ht f.data ∧
    (HashFile ht f).2.2 = f.seekErr ∧
    (f.seekErr = none → (HashFile ht f).1.pos = 0) ∧
    (ht.digestFn f.data ≠ [] → (HashFile ht f).2.1 ≠ "") := by
  obtain ⟨data, pos, re, se⟩ := f
  simp only at hr hp
  subst hr
  subst hp
  cases se with
  | none =>
      refine ⟨?_, ?_, ?_, ?_⟩ <;>
        simp [HashFile, HashReader, ioCopy, ReadSeeker.seekStart, HashData,
          HashType.NewFunc, Hasher.write, Hasher.sum]
      intro hne
      exact hexEncode_ne_empty _ (by simpa using hne)
  | some e =>
      refine ⟨?_, ?_, ?_, ?_⟩ <;>
        simp [HashFile, HashReader, ioCopy, ReadSeeker.seekStart, HashData,
          HashType.NewFunc, Hasher.write, Hasher.sum]
      intro hne
      exact hexEncode_ne_empty _ (by simpa using hne)

/-- A concrete two-byte source whose `Seek` fails. -/
def rsSeekFails : ReadSeeker :=
  ⟨[104, 105], 0, none, some (GoErr.ioErr "seek failed")⟩

/-- A concrete two-byte source whose `Seek` succeeds. -/
def rsSeekOk : ReadSeeker := ⟨[104, 105], 0, none, none⟩

/-- C6 witness: at the concrete sources, a failing rewind still pairs the
computed digest string with the seek error, and a successful one leaves
the position at 0. -/
theorem c6_witness :
    rsSeekFails.readErr = none ∧ rsSeekFails.pos = 0 ∧
    ((HashFile MD5 rsSeekFails).2.1 = HashData MD5 rsSeekFails.data ∧
     (HashFile MD5 rsSeekFails).2.2 = rsSeekFails.seekErr ∧
     (rsSeekFails.seekErr = none → (HashFile MD5 rsSeekFails).1.pos = 0) ∧
     (MD5.digestFn rsSeekFails.data ≠ [] →
       (HashFile MD5 rsSeekFails).2.1 ≠ "")) ∧
    ((HashFile MD5 rsSeekOk).2.1 = HashData MD5 rsSeekOk.data ∧
     (HashFile MD5 rsSeekOk).2.2 = rsSeekOk.seekErr ∧
     (rsSeekOk.seekErr = none → (HashFile MD5 rsSeekOk).1.pos = 0) ∧
     (MD5.digestFn rsSeekOk.data ≠ [] → (HashFile MD5 rsSeekOk).2.1 ≠ "")) :=
  ⟨rfl, rfl, c6_hashFile_rewind MD5 rsSeekFails rfl rfl,
   c6_hashFile_rewind MD5 rsSeekOk rfl rfl⟩

/-- C7: boot registers exactly `md5` (alias `MD5`, width 32), `sha1`
(alias `SHA-1`, width 40) and `sha256` (alias `SHA-256`, width 64), in
this order, each bound to the corresponding standard digest function and
retrievable both by canonical name and by alias. -/
theorem c7_boot_registrations :
    bootRegistry.Supported = [MD5, SHA1, SHA256] ∧
    MD5.Name = "md5" ∧ MD5.Alias = "MD5" ∧ MD5.Width = 32 ∧
    MD5.digestFn = md5Bytes ∧
    SHA1.Name = "sha1" ∧ SHA1.Alias = "SHA-1" ∧ SHA1.Width = 40 ∧
    SHA1.digestFn = sha1Bytes ∧
    SHA256.Name = "sha256" ∧ SHA256.Alias = "SHA-256" ∧ SHA256.Width = 64 ∧
    SHA256.digestFn = sha256Bytes ∧
    bootRegistry.name2hash "md5" = some MD5 ∧
    bootRegistry.alias2hash "MD5" = some MD5 ∧
    bootRegistry.name2hash "sha1" = some SHA1 ∧
    bootRegistry.alias2hash "SHA-1" = some SHA1 ∧
    bootRegistry.name2hash "sha256" = some SHA256 ∧
    bootRegistry.alias2hash "SHA-256" = some SHA256 :=
  ⟨rfl, rfl, rfl, rfl, rfl, rfl, rfl, rfl, rfl, rfl, rfl, rfl, rfl, rfl, rfl,
   rfl, rfl, rfl, rfl⟩

/-- C8 counterexample: MD5 of the ASCII bytes of `"hello"` is not the
spec's 31-character parenthetical reference value. -/
theorem c8_counterexample :
    HashData MD5 (strBytes "hello") ≠ "5d41402abc4b2a76b9719d911017c59" := by
  decide

/-- C8 (amended): MD5 of the bytes of `"hello"` is
`5d41402abc4b2a76b9719d911017c592` and SHA-256 of the same bytes is
`2cf24dba5fb0a30e26e83b2ac5b9e29e1b161e5c1fa7425e73043362938b9824`. -/
theorem c8_hello_digests :
    HashData MD5 (strBytes "hello") =
      "5d41402abc4b2a76b9719d911017c592" ∧
    HashData SHA256 (strBytes "hello") =
      "2cf24dba5fb0a30e26e83b2ac5b9e29e1b161e5c1fa7425e73043362938b9824" := by
  constructor <;> decide

/-- C9: whatever reply `(n, err)` the wrapped writer interface gives back —
in particular any reply with a non-nil error — the accounting step of
`Write` advances the byte counter by exactly `n` (never rolling it back)
and passes the reply through; and `Write` is precisely that accounting
step applied to the multiwriter's reply. -/
theorem c9_size_advances_on_error (m : MultiHasher)
    (h2 : List (HashType × Hasher)) (n : Nat) (e : GoErr) :
    ((mhAccount m h2 n (some e)).1.Size = m.Size + n ∧
     (mhAccount m h2 n (some e)).2.1 = n ∧
     (mhAccount m h2 n (some e)).2.2 = some e) ∧
    (∀ p : List Nat, m.Write p =
      mhAccount m (mwWrite m.h p).1 (mwWrite m.h p).2.1
        (mwWrite m.h p).2.2) :=
  ⟨⟨rfl, rfl, rfl⟩, fun _ => rfl⟩

/-- C10: `GetMD5EncodeStr` is exactly `HashData` at the MD5 descriptor on
the UTF-8 bytes of the string; at `"hello"` that is the reference MD5
value. -/
theorem c10_getMD5EncodeStr (s : String) :
    GetMD5EncodeStr s = HashData MD5 (strBytes s) ∧
    GetMD5EncodeStr "hello" = "5d41402abc4b2a76b9719d911017c592" :=
  ⟨rfl, by decide⟩

end AlistHash
